import Mathlib

/-!
Shallow embedding of the pandoc-export plugin core (src/main.ts) and proofs
about it.

The embedded code is the executable-resolution cascade, argument assembly,
command construction and outcome classification of `exportFile`
(src/main.ts lines 134-463) and `getExportDirectory` (lines 106-129).

External effects are modelled as inputs:
  - `fs.promises.access(p, X_OK)` success is a predicate `executable : String → Bool`;
  - the stdout of the diagnostic subprocesses (`echo $PATH` under zsh,
    `mdfind`, `which`/`where`) are `Option String` fields of `Env`
    (`none` models the command failing, i.e. the promise rejecting);
  - the list of PATH segments the code scrapes out of `~/.zshrc`
    (lines 213-235, a regex extraction whose internals no claim touches)
    is summarised as the resulting list `zshrcDirs`;
  - the outcome of running the final command is an `ExecResult` input,
    and `fs.promises.unlink` success is a `Bool` input.

String primitives of the JavaScript runtime (`split`, `trim`, `endsWith`,
`includes`, `path.join`, `path.isAbsolute`) are re-implemented below on
`List Char` so that every definition evaluates inside the kernel.
-/

/-- Character-list test: `pat` is a prefix of the second list. -/
def charsPre : List Char → List Char → Bool
  | [], _ => true
  | _ :: _, [] => false
  | a :: as, b :: bs => a == b && charsPre as bs

/-- Character-list test: `pat` occurs as a contiguous sublist. -/
def charsHas : List Char → List Char → Bool
  | [], pat => pat.isEmpty
  | c :: t, pat => charsPre pat (c :: t) || charsHas t pat

/-- JavaScript `s.includes(pat)`. -/
def strHasSub (s pat : String) : Bool := charsHas s.data pat.data

/-- JavaScript `s.endsWith(suf)`. -/
def endsWithStr (s suf : String) : Bool := charsPre suf.data.reverse s.data.reverse

/-- JavaScript `s.split(sep)` for a one-character separator (the separators
used by the source: `:`, `;`, `\n`). `"".split(sep)` is `[""]`. -/
def splitChars (sep : Char) : List Char → List String
  | [] => [""]
  | c :: t =>
    match splitChars sep t with
    | [] => [⟨[c]⟩]
    | h :: r => if c == sep then "" :: h :: r else ⟨c :: h.data⟩ :: r

def jsSplit (sep : Char) (s : String) : List String := splitChars sep s.data

/-- Drop leading whitespace characters. -/
def dropWs : List Char → List Char
  | [] => []
  | c :: t => if c.isWhitespace then dropWs t else c :: t

/-- JavaScript `s.trim()`. -/
def trimStr (s : String) : String := ⟨((dropWs ((dropWs s.data).reverse)).reverse)⟩

/-- The apostrophe character, used for single-quoting in posix commands. -/
def squo : String := ⟨[Char.ofNat 39]⟩

/-- The double-quote character. -/
def dquo : String := "\""

/-- The three `os.platform()` values the source distinguishes. -/
inductive Platform
  | win32
  | darwin
  | linux
deriving DecidableEq

/-- Path separator of Node's platform-specific `path` module. -/
def sepFor (plat : Platform) : String := if plat = .win32 then "\\" else "/"

/-- Node `path.join(d, f)` for the simple directory-plus-name case the
source uses (no `..` or `.` normalisation is needed by any call site). -/
def joinPath (plat : Platform) (d f : String) : String :=
  if endsWithStr d (sepFor plat) then d ++ f else d ++ sepFor plat ++ f

def isDriveLetter (c : Char) : Bool := ('A' ≤ c && c ≤ 'Z') || ('a' ≤ c && c ≤ 'z')

def isWinSep (c : Char) : Bool := c == '/' || c == '\\'

/-- Node `path.isAbsolute` of the platform-specific `path` module:
on win32 a leading separator or a drive letter followed by `:` and a
separator; elsewhere a leading `/`. -/
def isAbsolute (plat : Platform) (s : String) : Bool :=
  match plat, s.data with
  | .win32, [] => false
  | .win32, [c] => isWinSep c
  | .win32, c1 :: c2 :: rest =>
    isWinSep c1 ||
      (isDriveLetter c1 && c2 == ':' &&
        (match rest with | [] => false | c3 :: _ => isWinSep c3))
  | _, [] => false
  | _, c :: _ => c == '/'

/-- The external effects one resolution call observes (see module header). -/
structure Env where
  executable : String → Bool
  cwd : String
  pathEnv : String
  zshrcDirs : List String
  shellPathOut : Option String
  mdfindOut : Option String
  whichOut : Option String

/-- The curated well-known installation directories (src/main.ts lines
194-210), duplicates included exactly as in the source literal. -/
def commonPathsBase : List String :=
  ["C:\\Program Files\\Pandoc",
   "C:\\Pandoc",
   "/usr/local/bin",
   "/opt/homebrew/bin",
   "/opt/local/bin",
   "/opt/homebrew/bin",
   "/usr/local/Homebrew/bin",
   "/usr/bin",
   "/usr/local/bin",
   "/opt/bin"]

/-- The M1/M2 Homebrew directories appended on macOS (lines 254-263). -/
def brewM1Paths : List String :=
  ["/opt/homebrew/bin", "/opt/homebrew/sbin", "/opt/homebrew/opt/pandoc/bin"]

def pushIfAbsent (l : List String) (x : String) : List String :=
  if x ∈ l then l else l ++ [x]

def pushAllIfAbsent (l : List String) (xs : List String) : List String :=
  xs.foldl pushIfAbsent l

/-- Directories extracted from the zsh `echo $PATH` output (lines 238-248):
trimmed stdout split on `:` with empty segments filtered out, empty when
the command failed or printed nothing. -/
def shellDirs (o : Option String) : List String :=
  match o with
  | none => []
  | some out =>
    if trimStr out = "" then []
    else (jsSplit ':' (trimStr out)).filter (fun d => d ≠ "")

/-- The `commonPaths` array after the platform-specific extensions: on
macOS the zshrc-scraped values are pushed unconditionally (line 228), the
shell-PATH directories and the M1 Homebrew directories with a containment
check (lines 243-247, 259-263). -/
def commonPathsFor (plat : Platform) (env : Env) : List String :=
  if plat = .darwin then
    pushAllIfAbsent
      (pushAllIfAbsent (commonPathsBase ++ env.zshrcDirs) (shellDirs env.shellPathOut))
      brewM1Paths
  else commonPathsBase

/-- `process.env.PATH || ''` split on the platform separator (lines 189-191). -/
def splitPathVar (plat : Platform) (s : String) : List String :=
  jsSplit (if plat = .win32 then ';' else ':') s

/-- Keep the first occurrence of each element, like `[...new Set(l)]`. -/
def dedupFirst (l : List String) : List String :=
  l.foldl (fun acc x => if x ∈ acc then acc else acc ++ [x]) []

/-- `const allPaths = [...new Set([...pathDirs, ...commonPaths])]` (line 270). -/
def allPaths (plat : Platform) (env : Env) : List String :=
  dedupFirst (splitPathVar plat env.pathEnv ++ commonPathsFor plat env)

/-- `pandoc.exe` on windows, `pandoc` elsewhere (line 277). -/
def exeName (plat : Platform) : String :=
  if plat = .win32 then "pandoc.exe" else "pandoc"

/-- The executability probe of strategy 1/2 (lines 156-162, 168-174): the
path itself passes `X_OK`, or — on win32, when it does not end in `.exe` —
the `.exe`-suffixed variant passes. -/
def winExeRetry (plat : Platform) (exec : String → Bool) (p : String) : Bool :=
  exec p || (plat = .win32 && !(endsWithStr p ".exe") && exec (p ++ ".exe"))

/-- Strategies 1 and 2 (lines 152-182): only run for a truthy hint other
than the default `"pandoc"`; an absolute hint is probed directly, a
relative one is joined to `process.cwd()` first. The returned path is the
one stored in the `pandocPath` variable: note the absolute branch never
appends `.exe` to it. -/
def checkHint (plat : Platform) (exec : String → Bool) (cwd hint : String) : Option String :=
  if hint = "" ∨ hint = "pandoc" then none
  else if isAbsolute plat hint then
    if winExeRetry plat exec hint then some hint else none
  else
    if winExeRetry plat exec (joinPath plat cwd hint) then some (joinPath plat cwd hint)
    else none

/-- The strategy-3 loop (lines 273-288): first non-empty directory whose
joined `pandoc`/`pandoc.exe` passes the `X_OK` probe. -/
def searchPathList (plat : Platform) (exec : String → Bool) : List String → Option String
  | [] => none
  | d :: rest =>
    if d = "" then searchPathList plat exec rest
    else if exec (joinPath plat d (exeName plat)) then some (joinPath plat d (exeName plat))
    else searchPathList plat exec rest

/-- First path of a list that passes the `X_OK` probe (mdfind loop,
lines 298-308). -/
def firstExecutable (exec : String → Bool) : List String → Option String
  | [] => none
  | p :: r => if exec p then some p else firstExecutable exec r

/-- The mdfind strategy (lines 291-313): on non-empty trimmed stdout,
split on newlines and take the first executable line. -/
def mdfindStep (env : Env) : Option String :=
  match env.mdfindOut with
  | none => none
  | some out =>
    if trimStr out = "" then none
    else firstExecutable env.executable (jsSplit '\n' (trimStr out))

/-- The which/where strategy (lines 316-338): on non-empty trimmed stdout,
take the first line, trimmed — with no executability check. -/
def whichStep (env : Env) : Option String :=
  match env.whichOut with
  | none => none
  | some out =>
    if trimStr out = "" then none
    else some (trimStr ((jsSplit '\n' (trimStr out)).headD ""))

/-- The fixed error message thrown when no strategy finds pandoc
(lines 343-350). -/
def notFoundMsg : String :=
  "未找到Pandoc。虽然您可能已经安装，但插件无法检测到。\n\n" ++
  "请在插件设置中输入Pandoc的完整路径(绝对路径)：\n" ++
  "- Windows: 通常类似 C:\\Program Files\\Pandoc\\pandoc.exe\n" ++
  "- Mac: 通常类似 /usr/local/bin/pandoc 或 /opt/homebrew/bin/pandoc\n" ++
  "- Linux: 通常类似 /usr/bin/pandoc\n\n" ++
  "可以在终端运行 \"which pandoc\"(Mac/Linux) 或 \"where pandoc\"(Windows) 找到确切路径。"

/-- Which strategy produced the resolved path (diagnostics only). -/
inductive Provenance
  | userPath
  | pathSearch
  | mdfind
  | whichCmd
deriving DecidableEq

inductive ResolveResult
  | ok (path : String) (prov : Provenance)
  | toolNotFound (msg : String)
deriving DecidableEq

/-- The full resolution cascade of `exportFile` (lines 148-351): user hint,
then PATH/common-directory scan, then (macOS) mdfind, then which/where,
each attempted only while `pandocFound` is still false. -/
def resolve (plat : Platform) (env : Env) (hint : String) : ResolveResult :=
  match checkHint plat env.executable env.cwd hint with
  | some p => .ok p .userPath
  | none =>
    match searchPathList plat env.executable (allPaths plat env) with
    | some p => .ok p .pathSearch
    | none =>
      match (if plat = .darwin then mdfindStep env else none) with
      | some p => .ok p .mdfind
      | none =>
        match whichStep env with
        | some p => .ok p .whichCmd
        | none => .toolNotFound notFoundMsg

/-- The plugin settings record (src/main.ts lines 10-16). -/
structure PandocExportSettings where
  pandocPath : String
  defaultExportDirectory : String
  defaultFormat : String
  customArguments : String
  pdfEngine : String

/-- Argument assembly (lines 353-358): prepend `--pdf-engine=<engine>` to
the custom arguments when the format is pdf and the engine is not the
`auto` sentinel. -/
def assembleExtraArgs (format pdfEngine customArguments : String) : String :=
  if format = "pdf" ∧ pdfEngine ≠ "auto" then
    "--pdf-engine=" ++ pdfEngine ++ " " ++ customArguments
  else customArguments

/-- Command construction (lines 360-369): on win32 the executable is
invoked directly with all three paths double-quoted; elsewhere the whole
command is wrapped in `/bin/bash -c "..."` with the input and output paths
single-quoted and the executable path left bare. -/
def buildCommand (plat : Platform) (pandocPath tempFilePath outputPath extraArgs : String) : String :=
  if plat = .win32 then
    dquo ++ pandocPath ++ dquo ++ " " ++ dquo ++ tempFilePath ++ dquo ++ " -o " ++
      dquo ++ outputPath ++ dquo ++ " " ++ extraArgs
  else
    "/bin/bash -c " ++ dquo ++ pandocPath ++ " " ++ squo ++ tempFilePath ++ squo ++
      " -o " ++ squo ++ outputPath ++ squo ++ " " ++ extraArgs ++ dquo

/-- The `exec` options (lines 374-383): the caller's environment spread
unchanged, plus `shell: '/bin/bash'` off windows. -/
structure ExecOptions where
  env : List (String × String)
  shell : Option String
deriving DecidableEq

def buildOptions (plat : Platform) (procEnv : List (String × String)) : ExecOptions :=
  { env := procEnv, shell := if plat = .win32 then none else some "/bin/bash" }

/-- Outcome of `execPromise` on the constructed command: fulfilled with
captured stdout/stderr, or rejected with an error message (spawn failure
or nonzero exit). -/
inductive ExecResult
  | ok (stdout stderr : String)
  | err (msg : String)
deriving DecidableEq

def ExecResult.isOk : ExecResult → Bool
  | .ok _ _ => true
  | .err _ => false

/-- The classified outcome of one export. -/
inductive Outcome
  | success
  | toolNotFound
  | engineMissing
  | otherFailure
deriving DecidableEq

/-- The tool-absence test of the catch block (lines 402-403). -/
def toolIndicator (m : String) : Bool :=
  strHasSub m "command not found" || strHasSub m "not recognized" ||
    strHasSub m "未找到Pandoc"

/-- The PDF-engine-absence test of the catch block (lines 410-411). -/
def engineIndicator (m : String) : Bool :=
  strHasSub m "pdflatex not found" || strHasSub m "xelatex" ||
    strHasSub m "wkhtmltopdf" || strHasSub m "weasyprint"

/-- The error classification cascade of the catch block (lines 400-423). -/
def classifyFailure (m : String) : Outcome :=
  if toolIndicator m then .toolNotFound
  else if engineIndicator m then .engineMissing
  else .otherFailure

/-- `error.message || '未知错误'` (line 400): the fallback only replaces an
empty message. -/
def nonEmptyMsg (m : String) : String := if m = "" then "未知错误" else m

/-- What one `exportFile` call did: the transient file path it used, the
command it ran (`none` when resolution failed before `exec`), whether
`unlink` on the transient file was ever attempted, whether the success
notice was shown, and the classified outcome. -/
structure ExportTrace where
  tempFilePath : String
  cmd : Option String
  unlinkAttempted : Bool
  successNotice : Bool
  outcome : Outcome
deriving DecidableEq

/-- `exportFile` (lines 134-463) as a function of its external effects.
The body is one big `try`: write the transient input file, resolve pandoc
(throws `notFoundMsg` when every strategy fails), build and run the
command, then — only after a fulfilled `exec` — unlink the transient file
and show the success notice. Any rejection jumps to the catch block, which
classifies `error.message` and shows a failure notice; the transient file
is not touched there. -/
def exportFile (plat : Platform) (env : Env) (s : PandocExportSettings)
    (basename format outputPath tmpdir : String)
    (execRes : ExecResult) (unlinkOk : Bool) (unlinkErrMsg : String) : ExportTrace :=
  let tempFilePath := joinPath plat tmpdir (basename ++ "-temp.md")
  match resolve plat env s.pandocPath with
  | .toolNotFound msg =>
    { tempFilePath := tempFilePath, cmd := none, unlinkAttempted := false,
      successNotice := false, outcome := classifyFailure (nonEmptyMsg msg) }
  | .ok p _ =>
    let extraArgs := assembleExtraArgs format s.pdfEngine s.customArguments
    let cmd := buildCommand plat p tempFilePath outputPath extraArgs
    match execRes with
    | .err m =>
      { tempFilePath := tempFilePath, cmd := some cmd, unlinkAttempted := false,
        successNotice := false, outcome := classifyFailure (nonEmptyMsg m) }
    | .ok _ _ =>
      if unlinkOk then
        { tempFilePath := tempFilePath, cmd := some cmd, unlinkAttempted := true,
          successNotice := true, outcome := .success }
      else
        { tempFilePath := tempFilePath, cmd := some cmd, unlinkAttempted := true,
          successNotice := false, outcome := classifyFailure (nonEmptyMsg unlinkErrMsg) }

/-- Result of `getExportDirectory`: the directory returned, and the
directory `mkdir` was attempted on, if any. -/
structure ExportDirResult where
  dir : String
  mkdirTarget : Option String
deriving DecidableEq

/-- `getExportDirectory` (lines 106-129): empty setting returns the vault
root untouched; otherwise the setting (joined to the vault root when
relative) is `mkdir -p`ed, falling back to the vault root when that
fails. `mkdirOk` tells whether `fs.promises.mkdir` fulfils for a path. -/
def getExportDirectory (plat : Platform) (vaultPath exportSetting : String)
    (mkdirOk : String → Bool) : ExportDirResult :=
  if exportSetting = "" then { dir := vaultPath, mkdirTarget := none }
  else
    let exportPath :=
      if isAbsolute plat exportSetting then exportSetting
      else joinPath plat vaultPath exportSetting
    if mkdirOk exportPath then { dir := exportPath, mkdirTarget := some exportPath }
    else { dir := vaultPath, mkdirTarget := some exportPath }

set_option maxRecDepth 100000

/-! ## General lemmas about the string and search primitives -/

theorem charsPre_self_append (p r : List Char) : charsPre p (p ++ r) = true := by
  induction p with
  | nil => rfl
  | cons a as ih => simp [charsPre, ih]

theorem charsHas_of_pre {l pat : List Char} (h : charsPre pat l = true) :
    charsHas l pat = true := by
  cases l with
  | nil =>
    cases pat with
    | nil => rfl
    | cons a t => simp [charsPre] at h
  | cons c t => simp [charsHas, h]

theorem charsHas_append_right {r pat : List Char} (l : List Char)
    (h : charsHas r pat = true) : charsHas (l ++ r) pat = true := by
  induction l with
  | nil => simpa using h
  | cons c t ih => simp [charsHas, ih]

theorem charsHas_infix (l₁ p l₂ : List Char) : charsHas (l₁ ++ (p ++ l₂)) p = true :=
  charsHas_append_right l₁ (charsHas_of_pre (charsPre_self_append p l₂))

theorem strHasSub_mid (a b c : String) : strHasSub (a ++ (b ++ c)) b = true := by
  unfold strHasSub
  rw [String.data_append, String.data_append]
  exact charsHas_infix a.data b.data c.data

theorem strHasSub_append_left (a b : String) : strHasSub (a ++ b) a = true := by
  unfold strHasSub
  rw [String.data_append]
  exact charsHas_of_pre (charsPre_self_append a.data b.data)

theorem searchPathList_exec {plat : Platform} {exec : String → Bool} :
    ∀ {l : List String} {p : String}, searchPathList plat exec l = some p → exec p = true := by
  intro l
  induction l with
  | nil => intro p h; simp [searchPathList] at h
  | cons d rest ih =>
    intro p h
    by_cases hd : d = ""
    · simp [searchPathList, hd] at h
      exact ih h
    · by_cases he : exec (joinPath plat d (exeName plat)) = true
      · simp [searchPathList, hd, he] at h
        rw [← h]
        exact he
      · simp [searchPathList, hd, he] at h
        exact ih h

theorem firstExecutable_exec {exec : String → Bool} :
    ∀ {l : List String} {p : String}, firstExecutable exec l = some p → exec p = true := by
  intro l
  induction l with
  | nil => intro p h; simp [firstExecutable] at h
  | cons q rest ih =>
    intro p h
    by_cases hq : exec q = true
    · simp [firstExecutable, hq] at h
      rw [← h]
      exact hq
    · simp [firstExecutable, hq] at h
      exact ih h

theorem mdfindStep_exec {env : Env} {p : String} (h : mdfindStep env = some p) :
    env.executable p = true := by
  unfold mdfindStep at h
  split at h
  · nomatch h
  · split at h
    · nomatch h
    · exact firstExecutable_exec h

theorem checkHint_some {plat : Platform} {exec : String → Bool} {cwd hint p : String}
    (h : checkHint plat exec cwd hint = some p) : winExeRetry plat exec p = true := by
  unfold checkHint at h
  split at h
  · nomatch h
  · split at h
    · split at h
      · cases h; assumption
      · nomatch h
    · split at h
      · cases h; assumption
      · nomatch h

theorem searchPathList_append {plat : Platform} {exec : String → Bool} {d : String}
    (l₂ : List String) (hd : d ≠ "") (hexec : exec (joinPath plat d (exeName plat)) = true) :
    ∀ l₁ : List String,
      (∀ d' ∈ l₁, d' = "" ∨ exec (joinPath plat d' (exeName plat)) = false) →
      searchPathList plat exec (l₁ ++ d :: l₂) = some (joinPath plat d (exeName plat)) := by
  intro l₁
  induction l₁ with
  | nil =>
    intro _
    simp [searchPathList, hd, hexec]
  | cons d' rest ih =>
    intro hskip
    have hd' := hskip d' (by simp)
    have hrest : ∀ x ∈ rest, x = "" ∨ exec (joinPath plat x (exeName plat)) = false :=
      fun x hx => hskip x (by simp [hx])
    by_cases hne : d' = ""
    · simp [searchPathList, hne]
      exact ih hrest
    · rcases hd' with h | h
      · exact absurd h hne
      · simp [searchPathList, hne, h]
        exact ih hrest

/-! ## Inversion lemmas for the resolution cascade -/

theorem resolve_ok_inv {plat : Platform} {env : Env} {hint p : String} {prov : Provenance}
    (h : resolve plat env hint = .ok p prov) :
    (prov = .userPath ∧ checkHint plat env.executable env.cwd hint = some p) ∨
    (prov = .pathSearch ∧ searchPathList plat env.executable (allPaths plat env) = some p) ∨
    (prov = .mdfind ∧ plat = .darwin ∧ mdfindStep env = some p) ∨
    (prov = .whichCmd ∧ whichStep env = some p) := by
  unfold resolve at h
  cases hc : checkHint plat env.executable env.cwd hint with
  | some q =>
    rw [hc] at h
    cases h
    exact Or.inl ⟨rfl, rfl⟩
  | none =>
    rw [hc] at h
    cases hs : searchPathList plat env.executable (allPaths plat env) with
    | some q =>
      rw [hs] at h
      cases h
      exact Or.inr (Or.inl ⟨rfl, rfl⟩)
    | none =>
      rw [hs] at h
      cases hm : (if plat = .darwin then mdfindStep env else none) with
      | some q =>
        rw [hm] at h
        cases h
        by_cases hdw : plat = .darwin
        · rw [if_pos hdw] at hm
          exact Or.inr (Or.inr (Or.inl ⟨rfl, hdw, hm⟩))
        · rw [if_neg hdw] at hm
          nomatch hm
      | none =>
        rw [hm] at h
        cases hw : whichStep env with
        | some q =>
          rw [hw] at h
          cases h
          exact Or.inr (Or.inr (Or.inr ⟨rfl, rfl⟩))
        | none =>
          rw [hw] at h
          nomatch h

theorem resolve_notFound_inv {plat : Platform} {env : Env} {hint m : String}
    (h : resolve plat env hint = .toolNotFound m) : m = notFoundMsg := by
  unfold resolve at h
  cases hc : checkHint plat env.executable env.cwd hint with
  | some q => rw [hc] at h; nomatch h
  | none =>
    rw [hc] at h
    cases hs : searchPathList plat env.executable (allPaths plat env) with
    | some q => rw [hs] at h; nomatch h
    | none =>
      rw [hs] at h
      cases hm : (if plat = .darwin then mdfindStep env else none) with
      | some q => rw [hm] at h; nomatch h
      | none =>
        rw [hm] at h
        cases hw : whichStep env with
        | some q => rw [hw] at h; nomatch h
        | none => rw [hw] at h; cases h; rfl

theorem resolve_all_none {plat : Platform} {env : Env} {hint : String}
    (hc : checkHint plat env.executable env.cwd hint = none)
    (hs : searchPathList plat env.executable (allPaths plat env) = none)
    (hm : plat = .darwin → mdfindStep env = none)
    (hw : whichStep env = none) :
    resolve plat env hint = .toolNotFound notFoundMsg := by
  unfold resolve
  rw [hc, hs]
  have hgate : (if plat = .darwin then mdfindStep env else none) = none := by
    by_cases hdw : plat = .darwin
    · rw [if_pos hdw]; exact hm hdw
    · rw [if_neg hdw]
  rw [hgate, hw]

theorem resolve_of_search {plat : Platform} {env : Env} {hint p : String}
    (hc : checkHint plat env.executable env.cwd hint = none)
    (hs : searchPathList plat env.executable (allPaths plat env) = some p) :
    resolve plat env hint = .ok p .pathSearch := by
  unfold resolve
  rw [hc, hs]

theorem checkHint_none_abs {plat : Platform} {exec : String → Bool} {cwd hint : String}
    (ha : isAbsolute plat hint = true) (he : exec hint = false)
    (hwin : plat = .win32 → exec (hint ++ ".exe") = false) :
    checkHint plat exec cwd hint = none := by
  have hguard : ¬(hint = "" ∨ hint = "pandoc") := by
    rintro (rfl | rfl) <;> cases plat <;> exact absurd ha (by decide)
  have hw : winExeRetry plat exec hint = false := by
    unfold winExeRetry
    rw [he]
    simp only [Bool.false_or]
    by_cases hp : plat = .win32
    · rw [hwin hp]; simp
    · simp [hp]
  unfold checkHint
  rw [if_neg hguard, if_pos ha, if_neg]
  simp [hw]

theorem classifyFailure_nonEmptyMsg (m : String) :
    classifyFailure (nonEmptyMsg m) = classifyFailure m := by
  unfold nonEmptyMsg
  split
  · rename_i h
    rw [h]
    decide
  · rfl

theorem charsPre_append_prefix (x y r : List Char) :
    charsPre (x ++ y) (x ++ (y ++ r)) = true := by
  induction x with
  | nil => exact charsPre_self_append y r
  | cons a t ih => simp [charsPre, ih]

theorem charsPre_refl (p : List Char) : charsPre p p = true := by
  induction p with
  | nil => rfl
  | cons a t ih => simp [charsPre, ih]

theorem charsPre_extend {p l : List Char} (r : List Char) (h : charsPre p l = true) :
    charsPre p (l ++ r) = true := by
  induction p generalizing l with
  | nil => rfl
  | cons a as ih =>
    cases l with
    | nil => simp [charsPre] at h
    | cons b bs =>
      simp only [charsPre, Bool.and_eq_true] at h ⊢
      exact ⟨h.1, ih h.2⟩

theorem charsHas_extend {l p : List Char} (r : List Char) (h : charsHas l p = true) :
    charsHas (l ++ r) p = true := by
  induction l with
  | nil =>
    cases p with
    | nil => exact charsHas_of_pre rfl
    | cons a t => simp [charsHas, List.isEmpty] at h
  | cons c t ih =>
    simp only [charsHas, Bool.or_eq_true] at h ⊢
    rcases h with h | h
    · exact Or.inl (charsPre_extend r h)
    · exact Or.inr (ih h)

theorem strHasSub_self (p : String) : strHasSub p p = true :=
  charsHas_of_pre (charsPre_refl p.data)

theorem strHasSub_ext_right (a b p : String) (h : strHasSub a p = true) :
    strHasSub (a ++ b) p = true := by
  unfold strHasSub at h ⊢
  rw [String.data_append]
  exact charsHas_extend b.data h

/-! ## Claim C5: PDF engine flag assembly -/

/-- Claim C5: for a pdf job with an engine override other than the `auto`
sentinel, the assembled extra-argument string is exactly
`--pdf-engine=<engine>` prepended (with a space) to the user's custom
arguments, so it contains the flag; with the `auto` sentinel the assembled
string is the custom arguments unchanged, so it contains a `--pdf-engine`
flag exactly when the user supplied one. -/
theorem assembleExtraArgs_pdfEngine (engine custom : String) (h : engine ≠ "auto") :
    (assembleExtraArgs "pdf" engine custom = "--pdf-engine=" ++ engine ++ " " ++ custom ∧
     strHasSub (assembleExtraArgs "pdf" engine custom) ("--pdf-engine=" ++ engine) = true) ∧
    (assembleExtraArgs "pdf" "auto" custom = custom ∧
     strHasSub (assembleExtraArgs "pdf" "auto" custom) "--pdf-engine" =
       strHasSub custom "--pdf-engine") := by
  have heq : assembleExtraArgs "pdf" engine custom =
      "--pdf-engine=" ++ engine ++ " " ++ custom := by
    unfold assembleExtraArgs
    rw [if_pos ⟨rfl, h⟩]
  have hauto : assembleExtraArgs "pdf" "auto" custom = custom := by
    unfold assembleExtraArgs
    rw [if_neg]
    intro hcon
    exact hcon.2 rfl
  refine ⟨⟨heq, ?_⟩, hauto, by rw [hauto]⟩
  rw [heq]
  exact strHasSub_ext_right _ custom _
    (strHasSub_ext_right _ " " _ (strHasSub_self ("--pdf-engine=" ++ engine)))

/-- Witness for C5 at engine `xelatex` and custom arguments `--toc`. -/
theorem assembleExtraArgs_pdfEngine_witness :
    assembleExtraArgs "pdf" "xelatex" "--toc" = "--pdf-engine=" ++ "xelatex" ++ " " ++ "--toc" ∧
    strHasSub (assembleExtraArgs "pdf" "xelatex" "--toc") ("--pdf-engine=" ++ "xelatex") = true ∧
    assembleExtraArgs "pdf" "auto" "--toc" = "--toc" :=
  have t := assembleExtraArgs_pdfEngine "xelatex" "--toc" (by decide)
  ⟨t.1.1, t.1.2, t.2.1⟩

/-! ## Claim C8: command construction and execution options -/

/-- Claim C8 counterexample: the claim says that off windows the command
wraps the paths in single quotes, but the executable path is interpolated
bare: in the linux command for executable `/opt/pandoc` the single-quoted
executable never occurs, while the input path is single-quoted. -/
theorem buildCommand_exe_unquoted_counterexample :
    buildCommand .linux "/opt/pandoc" "/tmp/in.md" "/tmp/out.html" "" =
      "/bin/bash -c " ++ dquo ++ "/opt/pandoc" ++ " " ++ squo ++ "/tmp/in.md" ++ squo ++
        " -o " ++ squo ++ "/tmp/out.html" ++ squo ++ " " ++ "" ++ dquo ∧
    strHasSub (buildCommand .linux "/opt/pandoc" "/tmp/in.md" "/tmp/out.html" "")
      (squo ++ "/opt/pandoc" ++ squo) = false ∧
    strHasSub (buildCommand .linux "/opt/pandoc" "/tmp/in.md" "/tmp/out.html" "")
      (squo ++ "/tmp/in.md" ++ squo) = true := by decide

/-- Claim C8 amended: on win32 all three paths are double-quoted and the
executable is invoked directly; on every other platform the command is
wrapped in an explicit `/bin/bash -c "..."` with the input and output
paths single-quoted but the executable path unquoted, and the child
process receives the caller's environment unchanged plus, off windows,
the explicit shell `/bin/bash`. -/
theorem buildCommand_amended (plat : Platform) (exe tin tout args : String)
    (procEnv : List (String × String)) :
    (buildCommand .win32 exe tin tout args =
      dquo ++ exe ++ dquo ++ " " ++ dquo ++ tin ++ dquo ++ " -o " ++
        dquo ++ tout ++ dquo ++ " " ++ args) ∧
    (plat ≠ .win32 →
      buildCommand plat exe tin tout args =
        "/bin/bash -c " ++ dquo ++ exe ++ " " ++ squo ++ tin ++ squo ++
          " -o " ++ squo ++ tout ++ squo ++ " " ++ args ++ dquo ∧
      (buildOptions plat procEnv).shell = some "/bin/bash") ∧
    (buildOptions plat procEnv).env = procEnv ∧
    (buildOptions .win32 procEnv).shell = none := by
  refine ⟨by unfold buildCommand; rw [if_pos rfl], fun hnw => ?_, rfl, by unfold buildOptions; rw [if_pos rfl]⟩
  have hcmd : buildCommand plat exe tin tout args =
      "/bin/bash -c " ++ dquo ++ exe ++ " " ++ squo ++ tin ++ squo ++
        " -o " ++ squo ++ tout ++ squo ++ " " ++ args ++ dquo := by
    unfold buildCommand
    rw [if_neg hnw]
  exact ⟨hcmd, by unfold buildOptions; rw [if_neg hnw]⟩

/-- Witness for C8 amended on linux with concrete paths. -/
theorem buildCommand_amended_witness :
    buildCommand .linux "/usr/bin/pandoc" "/tmp/a.md" "/out/a.pdf" "--toc" =
      "/bin/bash -c " ++ dquo ++ "/usr/bin/pandoc" ++ " " ++ squo ++ "/tmp/a.md" ++ squo ++
        " -o " ++ squo ++ "/out/a.pdf" ++ squo ++ " " ++ "--toc" ++ dquo ∧
    (buildOptions .linux [("PATH", "/usr/bin")]).shell = some "/bin/bash" ∧
    (buildOptions .linux [("PATH", "/usr/bin")]).env = [("PATH", "/usr/bin")] :=
  have t := buildCommand_amended .linux "/usr/bin/pandoc" "/tmp/a.md" "/out/a.pdf" "--toc"
    [("PATH", "/usr/bin")]
  have h := t.2.1 (by decide)
  ⟨h.1, h.2, t.2.2.1⟩

/-! ## Claim C9: export directory resolution -/

/-- Claim C9: with an empty configured export directory the vault root is
returned and no directory creation is attempted; otherwise the setting
(joined to the vault root when relative) is the directory `mkdir` is
attempted on, it is returned when creation succeeds, and the vault root is
returned when creation fails. -/
theorem getExportDirectory_spec (plat : Platform) (vaultPath setting : String)
    (mk : String → Bool) :
    (setting = "" → getExportDirectory plat vaultPath setting mk =
      { dir := vaultPath, mkdirTarget := none }) ∧
    (setting ≠ "" →
      (getExportDirectory plat vaultPath setting mk).mkdirTarget =
        some (if isAbsolute plat setting then setting else joinPath plat vaultPath setting) ∧
      (mk (if isAbsolute plat setting then setting else joinPath plat vaultPath setting) = true →
        (getExportDirectory plat vaultPath setting mk).dir =
          (if isAbsolute plat setting then setting else joinPath plat vaultPath setting)) ∧
      (mk (if isAbsolute plat setting then setting else joinPath plat vaultPath setting) = false →
        (getExportDirectory plat vaultPath setting mk).dir = vaultPath)) := by
  refine ⟨fun h => by simp [getExportDirectory, h], fun h => ?_⟩
  unfold getExportDirectory
  rw [if_neg h]
  cases hmk : mk (if isAbsolute plat setting then setting else joinPath plat vaultPath setting) with
  | true => simp [hmk]
  | false => simp [hmk]

/-- Witness for C9: empty setting returns the vault root with no creation
attempt; a relative setting whose creation fails falls back to the vault
root while having attempted `mkdir` on the joined path. -/
theorem getExportDirectory_spec_witness :
    getExportDirectory .linux "/vault" "" (fun _ => true) =
      { dir := "/vault", mkdirTarget := none } ∧
    (getExportDirectory .linux "/vault" "out" (fun _ => false)).dir = "/vault" ∧
    (getExportDirectory .linux "/vault" "out" (fun _ => false)).mkdirTarget =
      some "/vault/out" :=
  have t1 := (getExportDirectory_spec .linux "/vault" "" (fun _ => true)).1 rfl
  have t2 := (getExportDirectory_spec .linux "/vault" "out" (fun _ => false)).2 (by decide)
  ⟨t1, t2.2.2 rfl, t2.1⟩

/-! ## Claim C10: the win32 `.exe` retry does not update the path -/

/-- Claim C10: on win32, when an absolute hint without the `.exe` suffix
fails the executability check but the suffixed variant passes, the
resolver returns the original unsuffixed hint, and the command line built
afterwards uses that unsuffixed hint. -/
theorem resolve_win32_keeps_unsuffixed_hint (env : Env)
    (hint basename format outputPath tmpdir sout serr uerr custom engine dfmt dexp : String)
    (h1 : hint ≠ "") (h2 : hint ≠ "pandoc")
    (h3 : isAbsolute .win32 hint = true)
    (h4 : endsWithStr hint ".exe" = false)
    (h5 : env.executable hint = false)
    (h6 : env.executable (hint ++ ".exe") = true) :
    resolve .win32 env hint = .ok hint .userPath ∧
    (exportFile .win32 env
        { pandocPath := hint, defaultExportDirectory := dexp, defaultFormat := dfmt,
          customArguments := custom, pdfEngine := engine }
        basename format outputPath tmpdir (.ok sout serr) true uerr).cmd =
      some (buildCommand .win32 hint (joinPath .win32 tmpdir (basename ++ "-temp.md"))
        outputPath (assembleExtraArgs format engine custom)) := by
  have hw : winExeRetry .win32 env.executable hint = true := by
    unfold winExeRetry
    rw [h5, h4, h6]
    decide
  have hch : checkHint .win32 env.executable env.cwd hint = some hint := by
    unfold checkHint
    rw [if_neg (by rintro (rfl | rfl); exact h1 rfl; exact h2 rfl), if_pos h3, if_pos hw]
  have hres : resolve .win32 env hint = .ok hint .userPath := by
    unfold resolve
    rw [hch]
  refine ⟨hres, ?_⟩
  unfold exportFile
  rw [hres]
  rfl

/-- Witness for C10: hint `C:\tools\pandoc` where only `C:\tools\pandoc.exe`
is executable resolves to the unsuffixed hint. -/
theorem resolve_win32_keeps_unsuffixed_hint_witness :
    resolve .win32
      { executable := fun q => q = "C:\\tools\\pandoc.exe", cwd := "C:\\w", pathEnv := "",
        zshrcDirs := [], shellPathOut := none, mdfindOut := none, whichOut := none }
      "C:\\tools\\pandoc" = .ok "C:\\tools\\pandoc" .userPath :=
  (resolve_win32_keeps_unsuffixed_hint
    { executable := fun q => q = "C:\\tools\\pandoc.exe", cwd := "C:\\w", pathEnv := "",
      zshrcDirs := [], shellPathOut := none, mdfindOut := none, whichOut := none }
    "C:\\tools\\pandoc" "n" "pdf" "C:\\out.pdf" "C:\\tmp" "" "" "u" "" "auto" "pdf" ""
    (by decide) (by decide) (by decide) (by decide) (by decide) (by decide)).1

/-! ## Claim C1: resolver executability invariant -/

/-- Claim C1 counterexample: the which/where strategy's first output line
is returned without any executability check — in an environment where no
path at all is executable, the resolver still returns the path printed by
`which`, so an unverified path is returned. -/
theorem resolve_unverified_which_counterexample :
    resolve .linux
      { executable := fun _ => false, cwd := "/", pathEnv := "", zshrcDirs := [],
        shellPathOut := none, mdfindOut := none, whichOut := some "/home/u/proj/pandoc\n" }
      "pandoc" = .ok "/home/u/proj/pandoc" .whichCmd ∧
    Env.executable
      { executable := fun _ => false, cwd := "/", pathEnv := "", zshrcDirs := [],
        shellPathOut := none, mdfindOut := none, whichOut := some "/home/u/proj/pandoc\n" }
      "/home/u/proj/pandoc" = false := by decide

/-- Claim C1 amended: paths produced by the user-hint, PATH-scan and
mdfind strategies have passed the `X_OK` probe — though on win32 the
user-hint strategy may have verified only the `.exe`-suffixed variant of
the path it returns — while the which/where strategy's output is returned
with no verification at all. -/
theorem resolve_verified_except_which (plat : Platform) (env : Env) (hint p : String)
    (prov : Provenance) (h : resolve plat env hint = .ok p prov) :
    (prov = .pathSearch ∨ prov = .mdfind → env.executable p = true) ∧
    (prov = .userPath →
      env.executable p = true ∨ (plat = .win32 ∧ env.executable (p ++ ".exe") = true)) := by
  rcases resolve_ok_inv h with ⟨hp, hc⟩ | ⟨hp, hs⟩ | ⟨hp, _, hm⟩ | ⟨hp, hw⟩
  · subst hp
    refine ⟨fun hx => ?_, fun _ => ?_⟩
    · rcases hx with hx | hx <;> nomatch hx
    · have hwr := checkHint_some hc
      unfold winExeRetry at hwr
      rw [Bool.or_eq_true] at hwr
      rcases hwr with h1 | h1
      · exact Or.inl h1
      · simp only [Bool.and_eq_true, decide_eq_true_eq] at h1
        exact Or.inr ⟨h1.1.1, h1.2⟩
  · subst hp
    exact ⟨fun _ => searchPathList_exec hs, fun hx => nomatch hx⟩
  · subst hp
    exact ⟨fun _ => mdfindStep_exec hm, fun hx => nomatch hx⟩
  · subst hp
    exact ⟨fun hx => (by rcases hx with hx | hx <;> nomatch hx), fun hx => nomatch hx⟩

/-- Witness for C1 amended: a PATH-scan resolution implies the returned
path passed the probe. -/
theorem resolve_verified_except_which_witness :
    Env.executable
      { executable := fun q => q = "/usr/bin/pandoc", cwd := "/", pathEnv := "/usr/bin",
        zshrcDirs := [], shellPathOut := none, mdfindOut := none, whichOut := none }
      "/usr/bin/pandoc" = true :=
  (resolve_verified_except_which .linux
    { executable := fun q => q = "/usr/bin/pandoc", cwd := "/", pathEnv := "/usr/bin",
      zshrcDirs := [], shellPathOut := none, mdfindOut := none, whichOut := none }
    "pandoc" "/usr/bin/pandoc" .pathSearch (by decide)).1 (Or.inl rfl)

/-! ## Claim C2: transient input file cleanup -/

/-- Claim C2 counterexample: on a failure of the external process the
transient input file's removal is never attempted — the `unlink` sits on
the success path only, before the success notice. -/
theorem exportFile_no_cleanup_counterexample :
    (exportFile .linux
        { executable := fun q => q = "/usr/local/bin/pandoc", cwd := "/", pathEnv := "",
          zshrcDirs := [], shellPathOut := none, mdfindOut := none, whichOut := none }
        { pandocPath := "/usr/local/bin/pandoc", defaultExportDirectory := "",
          defaultFormat := "pdf", customArguments := "", pdfEngine := "auto" }
        "note" "pdf" "/vault/note.pdf" "/tmp" (.err "conversion failed") true
        "u").unlinkAttempted = false ∧
    (exportFile .linux
        { executable := fun q => q = "/usr/local/bin/pandoc", cwd := "/", pathEnv := "",
          zshrcDirs := [], shellPathOut := none, mdfindOut := none, whichOut := none }
        { pandocPath := "/usr/local/bin/pandoc", defaultExportDirectory := "",
          defaultFormat := "pdf", customArguments := "", pdfEngine := "auto" }
        "note" "pdf" "/vault/note.pdf" "/tmp" (.err "conversion failed") true
        "u").cmd.isSome = true ∧
    (exportFile .linux
        { executable := fun q => q = "/usr/local/bin/pandoc", cwd := "/", pathEnv := "",
          zshrcDirs := [], shellPathOut := none, mdfindOut := none, whichOut := none }
        { pandocPath := "/usr/local/bin/pandoc", defaultExportDirectory := "",
          defaultFormat := "pdf", customArguments := "", pdfEngine := "auto" }
        "note" "pdf" "/vault/note.pdf" "/tmp" (.err "conversion failed") true
        "u").outcome ≠ .success := by decide

/-- Claim C2 amended: removal of the transient input file is attempted
exactly when resolution produced a command and the external process
fulfilled; on every failure path (resolution failure or process failure)
no removal is attempted; and when the removal itself fails the error
handler runs instead of the success notice, classifying the unlink error. -/
theorem exportFile_unlink_only_on_success (plat : Platform) (env : Env)
    (s : PandocExportSettings) (basename format outputPath tmpdir : String)
    (execRes : ExecResult) (unlinkOk : Bool) (unlinkErrMsg : String) :
    ((exportFile plat env s basename format outputPath tmpdir execRes unlinkOk
        unlinkErrMsg).unlinkAttempted =
      ((exportFile plat env s basename format outputPath tmpdir execRes unlinkOk
          unlinkErrMsg).cmd.isSome && execRes.isOk)) ∧
    ((exportFile plat env s basename format outputPath tmpdir execRes unlinkOk
        unlinkErrMsg).cmd.isSome = true → execRes.isOk = true → unlinkOk = false →
      (exportFile plat env s basename format outputPath tmpdir execRes unlinkOk
          unlinkErrMsg).successNotice = false ∧
      (exportFile plat env s basename format outputPath tmpdir execRes unlinkOk
          unlinkErrMsg).outcome = classifyFailure unlinkErrMsg) ∧
    ((exportFile plat env s basename format outputPath tmpdir execRes unlinkOk
        unlinkErrMsg).cmd.isSome = true → execRes.isOk = true → unlinkOk = true →
      (exportFile plat env s basename format outputPath tmpdir execRes unlinkOk
          unlinkErrMsg).successNotice = true ∧
      (exportFile plat env s basename format outputPath tmpdir execRes unlinkOk
          unlinkErrMsg).outcome = .success) := by
  cases hres : resolve plat env s.pandocPath with
  | toolNotFound m =>
    cases execRes <;>
      simp [exportFile, hres, ExecResult.isOk]
  | ok p prov =>
    cases execRes with
    | err m => simp [exportFile, hres, ExecResult.isOk]
    | ok sout serr =>
      cases unlinkOk <;>
        simp [exportFile, hres, ExecResult.isOk, classifyFailure_nonEmptyMsg]

/-- Witness for C2 amended: concrete run where the process fulfils but the
unlink fails — the success notice is suppressed and the unlink error is
classified. -/
theorem exportFile_unlink_only_on_success_witness :
    (exportFile .linux
        { executable := fun q => q = "/usr/local/bin/pandoc", cwd := "/", pathEnv := "",
          zshrcDirs := [], shellPathOut := none, mdfindOut := none, whichOut := none }
        { pandocPath := "/usr/local/bin/pandoc", defaultExportDirectory := "",
          defaultFormat := "pdf", customArguments := "", pdfEngine := "auto" }
        "note" "pdf" "/vault/note.pdf" "/tmp" (.ok "" "") false
        "EPERM: unlink failed").successNotice = false ∧
    (exportFile .linux
        { executable := fun q => q = "/usr/local/bin/pandoc", cwd := "/", pathEnv := "",
          zshrcDirs := [], shellPathOut := none, mdfindOut := none, whichOut := none }
        { pandocPath := "/usr/local/bin/pandoc", defaultExportDirectory := "",
          defaultFormat := "pdf", customArguments := "", pdfEngine := "auto" }
        "note" "pdf" "/vault/note.pdf" "/tmp" (.ok "" "") false
        "EPERM: unlink failed").outcome = classifyFailure "EPERM: unlink failed" :=
  (exportFile_unlink_only_on_success .linux
    { executable := fun q => q = "/usr/local/bin/pandoc", cwd := "/", pathEnv := "",
      zshrcDirs := [], shellPathOut := none, mdfindOut := none, whichOut := none }
    { pandocPath := "/usr/local/bin/pandoc", defaultExportDirectory := "",
      defaultFormat := "pdf", customArguments := "", pdfEngine := "auto" }
    "note" "pdf" "/vault/note.pdf" "/tmp" (.ok "" "") false
    "EPERM: unlink failed").2.1 (by decide) rfl rfl

/-! ## Claim C3: non-executable absolute hints -/

/-- Claim C3 counterexample: on win32 an absolute hint that itself lacks
execute permission is accepted — not rejected with `ToolNotFound` — as
soon as the `.exe`-suffixed variant is executable, and the unverified
unsuffixed path is returned. -/
theorem resolve_absolute_nonexecutable_counterexample :
    isAbsolute .win32 "C:\\tools\\pandoc" = true ∧
    Env.executable
      { executable := fun q => q = "C:\\tools\\pandoc.exe", cwd := "C:\\w", pathEnv := "",
        zshrcDirs := [], shellPathOut := none, mdfindOut := none, whichOut := none }
      "C:\\tools\\pandoc" = false ∧
    resolve .win32
      { executable := fun q => q = "C:\\tools\\pandoc.exe", cwd := "C:\\w", pathEnv := "",
        zshrcDirs := [], shellPathOut := none, mdfindOut := none, whichOut := none }
      "C:\\tools\\pandoc" ≠ .toolNotFound notFoundMsg ∧
    resolve .win32
      { executable := fun q => q = "C:\\tools\\pandoc.exe", cwd := "C:\\w", pathEnv := "",
        zshrcDirs := [], shellPathOut := none, mdfindOut := none, whichOut := none }
      "C:\\tools\\pandoc" = .ok "C:\\tools\\pandoc" .userPath := by decide

/-- Claim C3 amended: an absolute hint lacking execute permission — whose
`.exe` variant is also non-executable when on win32 — is never returned by
`resolve` as long as the which/where output is not that very string, and
when additionally every later strategy fails, `resolve` fails with the
`ToolNotFound` message. -/
theorem resolve_absolute_nonexecutable_amended (plat : Platform) (env : Env) (hint : String)
    (ha : isAbsolute plat hint = true)
    (he : env.executable hint = false)
    (hwin : plat = .win32 → env.executable (hint ++ ".exe") = false)
    (hwh : whichStep env ≠ some hint) :
    (∀ prov, resolve plat env hint ≠ .ok hint prov) ∧
    (searchPathList plat env.executable (allPaths plat env) = none →
      (plat = .darwin → mdfindStep env = none) →
      whichStep env = none →
      resolve plat env hint = .toolNotFound notFoundMsg) := by
  have hch : checkHint plat env.executable env.cwd hint = none :=
    checkHint_none_abs ha he hwin
  constructor
  · intro prov h
    rcases resolve_ok_inv h with ⟨_, hc⟩ | ⟨_, hs⟩ | ⟨_, _, hm⟩ | ⟨_, hw⟩
    · rw [hch] at hc
      nomatch hc
    · have := searchPathList_exec hs
      rw [this] at he
      nomatch he
    · have := mdfindStep_exec hm
      rw [this] at he
      nomatch he
    · exact hwh hw
  · intro hs hm hw
    exact resolve_all_none hch hs hm hw

/-- Witness for C3 amended: on linux with a non-executable absolute hint
and every strategy failing, `resolve` ends in `ToolNotFound`. -/
theorem resolve_absolute_nonexecutable_amended_witness :
    resolve .linux
      { executable := fun _ => false, cwd := "/", pathEnv := "/bin", zshrcDirs := [],
        shellPathOut := none, mdfindOut := none, whichOut := none }
      "/opt/tool/conv" = .toolNotFound notFoundMsg :=
  (resolve_absolute_nonexecutable_amended .linux
    { executable := fun _ => false, cwd := "/", pathEnv := "/bin", zshrcDirs := [],
      shellPathOut := none, mdfindOut := none, whichOut := none }
    "/opt/tool/conv" (by decide) (by decide) (fun h => nomatch h) (by decide)).2
    (by decide) (fun h => nomatch h) (by decide)

/-! ## Claim C4: strategy-3 first match short-circuits later strategies -/

/-- Claim C4: whenever the user-hint strategies have failed and the merged
candidate directory list contains a non-empty directory whose joined
`pandoc`/`pandoc.exe` is executable, `resolve` returns the first such
joined path with path-search provenance — and it does so whatever the
mdfind and which/where subprocesses would print, i.e. the later strategies
cannot influence the result. -/
theorem resolve_pathSearch_first_match (plat : Platform) (env : Env) (hint d : String)
    (l₁ l₂ : List String)
    (hch : checkHint plat env.executable env.cwd hint = none)
    (hall : allPaths plat env = l₁ ++ d :: l₂)
    (hskip : ∀ d' ∈ l₁, d' = "" ∨ env.executable (joinPath plat d' (exeName plat)) = false)
    (hd : d ≠ "")
    (hexec : env.executable (joinPath plat d (exeName plat)) = true)
    (mdf wh : Option String) :
    resolve plat { env with mdfindOut := mdf, whichOut := wh } hint =
      .ok (joinPath plat d (exeName plat)) .pathSearch := by
  apply resolve_of_search
  · exact hch
  · have hall' : allPaths plat { env with mdfindOut := mdf, whichOut := wh } =
        l₁ ++ d :: l₂ := hall
    rw [hall']
    exact searchPathList_append l₂ hd hexec l₁ hskip

/-- Witness for C4: with `/usr/bin` first on PATH holding the only
executable pandoc, resolution returns `/usr/bin/pandoc` via path-search
even though the mdfind and which oracles would print other paths. -/
theorem resolve_pathSearch_first_match_witness :
    resolve .linux
      { executable := fun q => q = "/usr/bin/pandoc", cwd := "/", pathEnv := "/usr/bin",
        zshrcDirs := [], shellPathOut := none, mdfindOut := some "/md/pandoc",
        whichOut := some "/which/pandoc\n" }
      "pandoc" = .ok "/usr/bin/pandoc" .pathSearch :=
  resolve_pathSearch_first_match .linux
    { executable := fun q => q = "/usr/bin/pandoc", cwd := "/", pathEnv := "/usr/bin",
      zshrcDirs := [], shellPathOut := none, mdfindOut := none, whichOut := none }
    "pandoc" "/usr/bin" []
    ["C:\\Program Files\\Pandoc", "C:\\Pandoc", "/usr/local/bin", "/opt/homebrew/bin",
     "/opt/local/bin", "/usr/local/Homebrew/bin", "/opt/bin"]
    (by decide) (by decide) (by simp) (by decide) (by decide)
    (some "/md/pandoc") (some "/which/pandoc\n")

/-! ## Claim C6: outcome classification -/

/-- Claim C6: once resolution succeeded, a fulfilled process is a success
whatever its standard error holds; a rejected process's message is run
through the classification cascade: tool-absence indicators give
tool-not-found, otherwise PDF-engine-absence indicators give
engine-missing, and anything else is other-failure. -/
theorem exportFile_outcome_classification (plat : Platform) (env : Env)
    (s : PandocExportSettings) (basename format outputPath tmpdir p : String)
    (prov : Provenance) (sout serr uerr m : String)
    (hres : resolve plat env s.pandocPath = .ok p prov) :
    (exportFile plat env s basename format outputPath tmpdir (.ok sout serr) true uerr).outcome
      = .success ∧
    (exportFile plat env s basename format outputPath tmpdir (.err m) true uerr).outcome
      = classifyFailure m ∧
    (strHasSub m "command not found" = true ∨ strHasSub m "not recognized" = true →
      classifyFailure m = .toolNotFound) ∧
    (toolIndicator m = false → engineIndicator m = true →
      classifyFailure m = .engineMissing) ∧
    (toolIndicator m = false → engineIndicator m = false →
      classifyFailure m = .otherFailure) := by
  refine ⟨?_, ?_, ?_, ?_, ?_⟩
  · simp [exportFile, hres]
  · simp [exportFile, hres, classifyFailure_nonEmptyMsg]
  · intro hx
    have ht : toolIndicator m = true := by
      unfold toolIndicator
      rcases hx with hx | hx <;> simp [hx]
    simp [classifyFailure, ht]
  · intro h1 h2
    simp [classifyFailure, h1, h2]
  · intro h1 h2
    simp [classifyFailure, h1, h2]

/-- Witness for C6: concrete resolution with a fulfilled run (non-empty
stderr) classified success, and a `command not found` rejection classified
tool-not-found. -/
theorem exportFile_outcome_classification_witness :
    (exportFile .linux
        { executable := fun q => q = "/usr/bin/pandoc", cwd := "/", pathEnv := "",
          zshrcDirs := [], shellPathOut := none, mdfindOut := none, whichOut := none }
        { pandocPath := "/usr/bin/pandoc", defaultExportDirectory := "",
          defaultFormat := "html", customArguments := "", pdfEngine := "auto" }
        "n" "html" "/o.html" "/tmp" (.ok "" "[WARNING] note") true "u").outcome = .success ∧
    (exportFile .linux
        { executable := fun q => q = "/usr/bin/pandoc", cwd := "/", pathEnv := "",
          zshrcDirs := [], shellPathOut := none, mdfindOut := none, whichOut := none }
        { pandocPath := "/usr/bin/pandoc", defaultExportDirectory := "",
          defaultFormat := "html", customArguments := "", pdfEngine := "auto" }
        "n" "html" "/o.html" "/tmp" (.err "sh: pandoc: command not found") true
        "u").outcome = classifyFailure "sh: pandoc: command not found" ∧
    classifyFailure "sh: pandoc: command not found" = .toolNotFound :=
  have t := exportFile_outcome_classification .linux
    { executable := fun q => q = "/usr/bin/pandoc", cwd := "/", pathEnv := "",
      zshrcDirs := [], shellPathOut := none, mdfindOut := none, whichOut := none }
    { pandocPath := "/usr/bin/pandoc", defaultExportDirectory := "",
      defaultFormat := "html", customArguments := "", pdfEngine := "auto" }
    "n" "html" "/o.html" "/tmp" "/usr/bin/pandoc" .userPath "" "[WARNING] note" "u"
    "sh: pandoc: command not found" (by decide)
  ⟨t.1, t.2.1, t.2.2.1 (Or.inl (by decide))⟩

/-! ## Claim C7: the ToolNotFound message -/

/-- Claim C7 counterexample: with hint `/opt/tool/conv` on macOS and every
strategy failing, the `ToolNotFound` message does not name the hint that
was tried, and it suggests the windows discovery command `where pandoc`
as well — it is not platform-specific. -/
theorem resolve_notFound_message_counterexample :
    resolve .darwin
      { executable := fun _ => false, cwd := "/", pathEnv := "", zshrcDirs := [],
        shellPathOut := none, mdfindOut := none, whichOut := none }
      "/opt/tool/conv" = .toolNotFound notFoundMsg ∧
    strHasSub notFoundMsg "/opt/tool/conv" = false ∧
    strHasSub notFoundMsg "where pandoc" = true := by decide

/-- Claim C7 amended: when every strategy fails, `resolve` fails with one
fixed message, independent of the hint and the platform; that message
suggests both discovery commands — `which pandoc` for Mac/Linux and
`where pandoc` for Windows — and does not mention the hint. -/
theorem resolve_notFound_message_amended (plat : Platform) (env : Env) (hint m : String)
    (h : resolve plat env hint = .toolNotFound m) :
    m = notFoundMsg ∧ strHasSub m "which pandoc" = true ∧
      strHasSub m "where pandoc" = true := by
  have hm := resolve_notFound_inv h
  subst hm
  exact ⟨rfl, by decide, by decide⟩

/-- Witness for C7 amended at a concrete failing environment. -/
theorem resolve_notFound_message_amended_witness :
    strHasSub notFoundMsg "which pandoc" = true ∧
      strHasSub notFoundMsg "where pandoc" = true :=
  have t := resolve_notFound_message_amended .linux
    { executable := fun _ => false, cwd := "/", pathEnv := "", zshrcDirs := [],
      shellPathOut := none, mdfindOut := none, whichOut := none }
    "/opt/tool/conv" notFoundMsg (by decide)
  ⟨t.2.1, t.2.2⟩
